import Mathlib

/-!
# Verification of the SVG asset-embedding and aspect-ratio-fixing tools

Shallow embedding of the core of `tools/fix_image_aspect.py` and
`tools/embed_images.py`, with theorems settling the specification claims.

Numeric values carried by SVG attributes and computed by the tools are
modelled as rationals (`ℚ`); raw file bytes as `List Nat` (each byte
`< 256` where it matters); attribute text as `List Char`.
-/

namespace PPT

/-- Big-endian value of a byte list, as Python's `int.from_bytes(_, "big")`
(the empty list yields 0). -/
def beVal (bs : List Nat) : Nat := bs.foldl (fun a b => a * 256 + b) 0

/-- `readN bs pos n` models `f.seek(pos); f.read(n)` on a file whose content
is `bs`: it yields the bytes `bs[pos : pos+n]`, possibly fewer than `n` of
them near the end of the file, and `[]` past the end. -/
def readN (bs : List Nat) (pos n : Nat) : List Nat := (bs.drop pos).take n

/-- The 8-byte PNG magic `89 50 4E 47 0D 0A 1A 0A` (`b"\x89PNG\r\n\x1a\n"`). -/
def pngMagic : List Nat := [0x89, 0x50, 0x4E, 0x47, 0x0D, 0x0A, 0x1A, 0x0A]

/-- Embedding of the JPEG marker-scanning loop of
`get_image_dimensions_basic` (`tools/fix_image_aspect.py`): at file
position `pos`, read a 2-byte marker `FF xx`; on `C0`/`C2` skip 3 bytes
(length + precision) and return `(width, height)` from the following two
big-endian 16-bit fields (height first in the file); stop on `D9`; skip
`D8` and `D0`–`D7` without a length; otherwise read a 2-byte length and
seek `length - 2` further.  The loop advances at least 2 positions per
iteration, so `bs.length + 1` units of fuel always suffice. -/
def jpegScanF (bs : List Nat) : Nat → Nat → Option (Nat × Nat)
  | 0, _ => none
  | fuel + 1, pos =>
    match readN bs pos 2 with
    | [a, m] =>
      if a ≠ 0xFF then none
      else if m = 0xC0 ∨ m = 0xC2 then
        some (beVal (readN bs (pos + 7) 2), beVal (readN bs (pos + 5) 2))
      else if m = 0xD9 then none
      else if m = 0xD8 then jpegScanF bs fuel (pos + 2)
      else if 0xD0 ≤ m ∧ m ≤ 0xD7 then jpegScanF bs fuel (pos + 2)
      else jpegScanF bs fuel (pos + 2 + beVal (readN bs (pos + 2) 2))
    | _ => none

/-- Embedding of `get_image_dimensions_basic(image_path)` on the byte
content of the file: the code reads the first 64 bytes, checks the PNG
magic and returns the 32-bit big-endian integers at offsets 16 and 20;
otherwise, on the JPEG magic `FF D8`, re-reads the file and runs the
marker scan from offset 2; otherwise returns `(None, None)` (here
`none`). -/
def get_image_dimensions_basic (bs : List Nat) : Option (ℚ × ℚ) :=
  let data := bs.take 64
  if data.take 8 = pngMagic then
    some ((beVal ((data.drop 16).take 4) : ℚ), (beVal ((data.drop 20).take 4) : ℚ))
  else if data.take 2 = [0xFF, 0xD8] then
    (jpegScanF bs (bs.length + 1) 2).map (fun p => ((p.1 : ℚ), (p.2 : ℚ)))
  else
    none

/-- A well-formed JPEG segment preceding the start-of-frame: either a
standalone marker (`D8`, or a restart marker `D0`–`D7`), or a marker with
a 2-byte length field followed by its payload. -/
inductive JSeg where
  | standalone : Nat → JSeg
  | lengthed : Nat → List Nat → JSeg

/-- Serialized bytes of a segment: `FF m` for standalone markers;
`FF m len_hi len_lo payload` for lengthed segments, the length field
counting the payload plus its own two bytes. -/
def JSeg.bytes : JSeg → List Nat
  | .standalone m => [0xFF, m]
  | .lengthed m payload =>
      0xFF :: m :: (payload.length + 2) / 256 :: (payload.length + 2) % 256 :: payload

/-- Well-formedness of a pre-SOF segment: standalone markers are `D8` or
`D0`–`D7`; lengthed markers are bytes other than `C0`, `C2`, `D8`, `D9`,
`D0`–`D7`, with a length that fits the 2-byte field. -/
def JSeg.WF : JSeg → Prop
  | .standalone m => m = 0xD8 ∨ (0xD0 ≤ m ∧ m ≤ 0xD7)
  | .lengthed m payload =>
      m < 256 ∧ m ≠ 0xC0 ∧ m ≠ 0xC2 ∧ m ≠ 0xD8 ∧ m ≠ 0xD9 ∧
        ¬(0xD0 ≤ m ∧ m ≤ 0xD7) ∧ payload.length + 2 < 65536

instance : DecidablePred JSeg.WF := fun s =>
  match s with
  | .standalone m =>
      inferInstanceAs (Decidable (m = 0xD8 ∨ (0xD0 ≤ m ∧ m ≤ 0xD7)))
  | .lengthed m payload =>
      inferInstanceAs (Decidable (m < 256 ∧ m ≠ 0xC0 ∧ m ≠ 0xC2 ∧ m ≠ 0xD8 ∧
        m ≠ 0xD9 ∧ ¬(0xD0 ≤ m ∧ m ≤ 0xD7) ∧ payload.length + 2 < 65536))

/-- Concatenated serialization of a list of segments. -/
def segsBytes : List JSeg → List Nat
  | [] => []
  | s :: rest => s.bytes ++ segsBytes rest

/-! ## Inline byte-representations: `get_image_dimensions_from_base64` and
the `data:` branch of `get_image_dimensions` -/

/-- Word characters, as matched by Python's `\w` on ASCII text. -/
def isWordChar (c : Char) : Bool := c.isAlpha || c.isDigit || c == '_'

/-- Whitespace, as matched by Python's `\s` on ASCII text:
space, tab, newline, carriage return, vertical tab, form feed. -/
def isSpaceChar (c : Char) : Bool :=
  c == ' ' || c == '\t' || c == '\n' || c == '\r' ||
    c == Char.ofNat 11 || c == Char.ofNat 12

/-- `\d` on ASCII text. -/
def isDigitChar (c : Char) : Bool := c.isDigit

/-- Value of a run of decimal digit characters. -/
def digitsVal (ds : List Char) : Nat := ds.foldl (fun a c => a * 10 + (c.toNat - 48)) 0

/-- Value of `float("<ip>.<fp>")` for digit runs `ip` and `fp`
(`fp` possibly empty). -/
def decVal (ip fp : List Char) : ℚ :=
  (digitsVal ip : ℚ) + (digitsVal fp : ℚ) / (10 : ℚ) ^ fp.length

/-- Match a literal character sequence at the head of the input, returning
the remainder. -/
def stripLit : List Char → List Char → Option (List Char)
  | [], cs => some cs
  | l :: ls, c :: cs => if c == l then stripLit ls cs else none
  | _ :: _, [] => none

/-- Greedy `\d+`, discarding the value (used for the min-x/min-y fields,
which the regex does not capture). -/
def matchInt (cs : List Char) : Option (List Char) :=
  if (cs.takeWhile isDigitChar).isEmpty then none else some (cs.dropWhile isDigitChar)

/-- Greedy `\s+`. -/
def matchSpaces1 (cs : List Char) : Option (List Char) :=
  if (cs.takeWhile isSpaceChar).isEmpty then none else some (cs.dropWhile isSpaceChar)

/-- Greedy `(\d+\.?\d*)`, returning the parsed value and the remainder.
Digits, dot, whitespace and quotes are disjoint character classes, so
greedy matching here agrees with the backtracking regex engine. -/
def matchNumber (cs : List Char) : Option (ℚ × List Char) :=
  let ip := cs.takeWhile isDigitChar
  if ip.isEmpty then none
  else
    match cs.dropWhile isDigitChar with
    | '.' :: r2 => some (decVal ip (r2.takeWhile isDigitChar), r2.dropWhile isDigitChar)
    | r1 => some (decVal ip [], r1)

def isQuote (c : Char) : Bool := c == '"' || c == '\''

/-- Match the regex
`viewBox\s*=\s*["\']\d+\s+\d+\s+(\d+\.?\d*)\s+(\d+\.?\d*)["\']`
anchored at the head of the input, returning the two captured values
(width, height). -/
def matchViewBoxAt (cs : List Char) : Option (ℚ × ℚ) := do
  let r ← stripLit ("viewBox".toList) cs
  let r := r.dropWhile isSpaceChar
  let r ← match r with | '=' :: t => some t | _ => none
  let r := r.dropWhile isSpaceChar
  let r ← match r with
    | q :: t => if isQuote q then some t else none
    | [] => none
  let r ← matchInt r
  let r ← matchSpaces1 r
  let r ← matchInt r
  let r ← matchSpaces1 r
  let (w, r) ← matchNumber r
  let r ← matchSpaces1 r
  let (h, r) ← matchNumber r
  match r with
  | q :: _ => if isQuote q then some (w, h) else none
  | [] => none

/-- `re.search`: try the pattern at every start position, left to right. -/
def viewBoxScan : List Char → Option (ℚ × ℚ)
  | [] => none
  | c :: cs =>
    match matchViewBoxAt (c :: cs) with
    | some wh => some wh
    | none => viewBoxScan cs

/-- Embedding of `get_image_dimensions_from_base64(data_uri)` in an
environment where PIL failed to import, for a data URI
`data:image/<mt>;base64,<payload>` whose base64 text decodes to the bytes
`payload`.  The guard regex `data:image/(\w+);base64,(.+)` matches exactly
when the media-type text is a nonempty run of word characters and the
payload text is nonempty.  Without PIL only the PNG signature is inspected
(offsets 16/20 behind the 8-byte magic); everything else yields
`(None, None)`. -/
def get_image_dimensions_from_base64_noPIL (mt : List Char) (payload : List Nat) :
    Option (ℚ × ℚ) :=
  if mt ≠ [] ∧ mt.all isWordChar ∧ payload ≠ [] then
    if payload.take 8 = pngMagic then
      some ((beVal ((payload.drop 16).take 4) : ℚ),
        (beVal ((payload.drop 20).take 4) : ℚ))
    else none
  else none

/-- Embedding of the `data:` branch of `get_image_dimensions(href, svg_dir)`
for an SVG data URI (one containing `image/svg+xml`): the decoded payload
text is scanned — only its first 2048 characters — for the `viewBox`
pattern; if the pattern is absent the code falls through to
`get_image_dimensions_from_base64` on the same URI, whose guard regex
stops at the `+` of `svg+xml`. -/
def get_image_dimensions_dataSvg (text : List Char) (payload : List Nat) :
    Option (ℚ × ℚ) :=
  match viewBoxScan (text.take 2048) with
  | some wh => some wh
  | none => get_image_dimensions_from_base64_noPIL ("svg+xml".toList) payload

/-! ## Aspect-Fit Calculator: `calculate_fitted_dimensions` -/

/-- The `mode` argument of `calculate_fitted_dimensions`: the code compares
the string against `"meet"` and treats everything else as slice. -/
inductive FitMode where
  | meet : FitMode
  | slice : FitMode
deriving DecidableEq, Repr

/-- Embedding of `calculate_fitted_dimensions(img_width, img_height,
box_width, box_height, mode)` from `tools/fix_image_aspect.py`:
returns `(new_width, new_height, offset_x, offset_y)`. -/
def calculate_fitted_dimensions (img_width img_height box_width box_height : ℚ)
    (mode : FitMode) : ℚ × ℚ × ℚ × ℚ :=
  let img_ratio := img_width / img_height
  let box_ratio := box_width / box_height
  let wh : ℚ × ℚ :=
    match mode with
    | .meet =>
      if img_ratio > box_ratio then
        (box_width, box_width / img_ratio)
      else
        (box_height * img_ratio, box_height)
    | .slice =>
      if img_ratio > box_ratio then
        (box_height * img_ratio, box_height)
      else
        (box_width, box_width / img_ratio)
  (wh.1, wh.2, (box_width - wh.1) / 2, (box_height - wh.2) / 2)

/-! ## Geometry Fixer: `fix_image_aspect_in_svg` -/

/-- Half-even rounding of `q` to one decimal place: the value written back
by Python's `f"{value:.1f}"` attribute formatting. -/
def round1 (q : ℚ) : ℚ :=
  let f : ℤ := ⌊q * 10⌋
  let r : ℚ := q * 10 - (f : ℚ)
  let n : ℤ :=
    if r < 1/2 then f
    else if (1 : ℚ)/2 < r then f + 1
    else if f % 2 = 0 then f else f + 1
  (n : ℚ) / 10

/-- The default `preserveAspectRatio` value the Fixer substitutes when the
attribute is absent (`image_elem.get("preserveAspectRatio", "xMidYMid meet")`). -/
def defaultPar : List Char := "xMidYMid meet".toList

/-- An `<image>` element as the Fixer sees it: geometry attributes parsed to
rationals, the optional `preserveAspectRatio` string, whether an
`href`/`xlink:href` is present, and the probed intrinsic dimensions of the
referenced image (`get_image_dimensions`; `none` for Unknown).  The probe
result is a function of the unchanged `href` and of the external files, so
it is carried on the node. -/
structure ImageNode where
  hasHref : Bool
  x : ℚ
  y : ℚ
  width : ℚ
  height : ℚ
  par : Option (List Char)
  dims : Option (ℚ × ℚ)
deriving DecidableEq

/-- Python's substring test `needle in hay` on text. -/
def containsSeq (needle : List Char) : List Char → Bool
  | [] => needle.isEmpty
  | c :: t => needle.isPrefixOf (c :: t) || containsSeq needle t

/-- The `preserveAspectRatio` string the loop body works with. -/
def ImageNode.parValue (n : ImageNode) : List Char := n.par.getD defaultPar

/-- `"none" in par`. -/
def ImageNode.parSkip (n : ImageNode) : Bool := containsSeq ("none".toList) n.parValue

/-- `mode = "slice" if "slice" in par else "meet"`. -/
def ImageNode.mode (n : ImageNode) : FitMode :=
  if containsSeq ("slice".toList) n.parValue then .slice else .meet

/-- The fitted size the Calculator produces for this node (meaningful when
the node carries probed dimensions). -/
def ImageNode.fitted (n : ImageNode) : ℚ × ℚ :=
  match n.dims with
  | some (iw, ih) =>
      ((calculate_fitted_dimensions iw ih n.width n.height n.mode).1,
        (calculate_fitted_dimensions iw ih n.width n.height n.mode).2.1)
  | none => (0, 0)

/-- Loop body of `fix_image_aspect_in_svg` for one `<image>` element:
skip when `href` is missing, when the box is non-positive, when the
`preserveAspectRatio` value contains `"none"`, or when the probe returned
Unknown; otherwise compute the fitted rectangle, skip when it differs from
the box by less than 0.5 on both axes, and else overwrite the geometry
(rounded to one decimal place) and drop the `preserveAspectRatio`
attribute, counting the node as fixed. -/
def fixNode (n : ImageNode) : ImageNode × Bool :=
  if n.hasHref = false then (n, false)
  else if n.width ≤ 0 ∨ n.height ≤ 0 then (n, false)
  else if n.parSkip then (n, false)
  else
    match n.dims with
    | none => (n, false)
    | some (iw, ih) =>
      let r := calculate_fitted_dimensions iw ih n.width n.height n.mode
      if |r.1 - n.width| < 1/2 ∧ |r.2.1 - n.height| < 1/2 then (n, false)
      else
        ({ hasHref := n.hasHref,
           x := round1 (n.x + r.2.2.1),
           y := round1 (n.y + r.2.2.2),
           width := round1 r.1,
           height := round1 r.2.1,
           par := none,
           dims := n.dims }, true)

/-- Whole-document Geometry Fixer pass: process every image node in
document order and return the rewritten document with `fixed_count`. -/
def fix_image_aspect_in_svg : List ImageNode → List ImageNode × Nat
  | [] => ([], 0)
  | n :: rest =>
    let (n', b) := fixNode n
    let (rest', c) := fix_image_aspect_in_svg rest
    (n' :: rest', (if b then 1 else 0) + c)

/-! ## Asset Embedder: `embed_images_in_svg` (`tools/embed_images.py`) -/

/-- The reference attribute of a placement node: an inline data URI
(media type plus decoded byte payload) or a file path.  A file path stands
for the decoded reference text (`unquote(html.unescape(href))`) relative
to the document's directory; the abstract filesystem below is indexed by
these decoded texts. -/
inductive Href where
  | data : List Char → List Nat → Href
  | file : List Char → Href

/-- Embedding of `get_mime_type(filename)`: lowercase the name, take the
text after the last dot (the whole name when there is no dot), and map the
recognized extensions, defaulting to a generic octet-stream tag. -/
def get_mime_type (filename : List Char) : List Char :=
  let ext := (filename.map Char.toLower).foldl
    (fun acc c => if c = '.' then [] else acc ++ [c]) []
  if ext = "png".toList then "image/png".toList
  else if ext = "jpg".toList then "image/jpeg".toList
  else if ext = "jpeg".toList then "image/jpeg".toList
  else if ext = "gif".toList then "image/gif".toList
  else if ext = "webp".toList then "image/webp".toList
  else if ext = "svg".toList then "image/svg+xml".toList
  else "application/octet-stream".toList

/-- `full_path.suffix.lower() == ".svg"`: the (lowercased) path ends in
`.svg` (coinciding with `Path.suffix` for every file name with a nonempty
stem). -/
def isSvgPath (p : List Char) : Bool :=
  (".svg".toList.reverse).isPrefixOf ((p.map Char.toLower).reverse)

/-- A document element as the Embedder sees it: an `<image>` with its
reference and box, a `<g>` with an optional synthesized transform
`translate(tx, ty) scale(sx, sy)` and its children, or any other element. -/
inductive Elem where
  | image : Option Href → ℚ → ℚ → ℚ → ℚ → Elem
  | g : Option (ℚ × ℚ × ℚ × ℚ) → List Elem → Elem
  | other : Elem

/-- A file on disk as the Embedder uses it: its raw bytes, and — when the
Embedder attempts structural inlining — the result of parsing it as SVG:
the root's children together with its intrinsic size from the
`get_svg_dimensions` metadata accessor (`none` models both an unparseable
file and, in the dimension slot, an unknown intrinsic size; the accessor
itself lives in the `project_utils` collaborator module, so it is kept
abstract here). -/
structure FsFile where
  bytes : List Nat
  svgParse : Option (List Elem × Option (ℚ × ℚ))

mutual

/-- Loop body of `embed_images_in_svg` for one collected element (the code
collects the image list before mutating, so children inserted by
structural inlining are not processed in the same run; original `<g>`
subtrees are traversed, since `root.iter()` is recursive): returns the
rewritten element, the number of embeddings, and the number of
missing-file warnings.  A node with no reference, an empty reference
(`not href` is also true for `""`) or an inline (`data:`) reference is
untouched; a missing file warns and is skipped; an `.svg`
target that parses is structurally inlined into a `<g>` carrying
`translate(x, y) scale(w/sw, h/sh)` (scales default to 1.0 when the
intrinsic size is unknown or zero) with the target's children copied
verbatim; a failed parse falls back to byte-inline embedding; any other
target is byte-inline embedded with its MIME type, geometry untouched. -/
def embedElem (fs : List Char → Option FsFile) : Elem → Elem × Nat × Nat
  | .image href x y w h =>
    match href with
    | none => (.image none x y w h, 0, 0)
    | some (.data mt payload) => (.image (some (.data mt payload)) x y w h, 0, 0)
    | some (.file p) =>
      if p = [] then (.image (some (.file p)) x y w h, 0, 0)
      else
        match fs p with
        | none => (.image (some (.file p)) x y w h, 0, 1)
        | some f =>
          if isSvgPath p then
            match f.svgParse with
            | some (children, dimsOpt) =>
              let s : ℚ × ℚ :=
                match dimsOpt with
                | some (sw, sh) => if sw ≠ 0 ∧ sh ≠ 0 then (w / sw, h / sh) else (1, 1)
                | none => (1, 1)
              (.g (some (x, y, s.1, s.2)) children, 1, 0)
            | none => (.image (some (.data (get_mime_type p) f.bytes)) x y w h, 1, 0)
          else
            (.image (some (.data (get_mime_type p) f.bytes)) x y w h, 1, 0)
  | .g t children =>
    let r := embedChildren fs children
    (.g t r.1, r.2)
  | .other => (.other, 0, 0)

/-- Process a sibling list in document order, summing embeddings and
warnings. -/
def embedChildren (fs : List Char → Option FsFile) : List Elem → List Elem × Nat × Nat
  | [] => ([], 0, 0)
  | e :: rest =>
    let r1 := embedElem fs e
    let r2 := embedChildren fs rest
    (r1.1 :: r2.1, r1.2.1 + r2.2.1, r1.2.2 + r2.2.2)

end

/-- Whole-document Asset Embedder pass over the root's subtree:
`(rewritten document, images_embedded, warnings)`. -/
def embed_images_in_svg (fs : List Char → Option FsFile) (doc : List Elem) :
    List Elem × Nat × Nat :=
  embedChildren fs doc

mutual

/-- No image anywhere in this element references a nonempty file path that
exists: nothing for the Embedder to embed. -/
def elemClean (fs : List Char → Option FsFile) : Elem → Bool
  | .image href _ _ _ _ =>
    match href with
    | some (.file p) => p.isEmpty || (fs p).isNone
    | _ => true
  | .g _ children => childrenClean fs children
  | .other => true

def childrenClean (fs : List Char → Option FsFile) : List Elem → Bool
  | [] => true
  | e :: rest => elemClean fs e && childrenClean fs rest

end

mutual

/-- Every vector target this element structurally inlines (a nonempty
`.svg` reference whose file exists and parses) has children free of
resolvable external references.  This conditions only the targets the
document itself references, not the rest of the filesystem. -/
def elemTargetsClean (fs : List Char → Option FsFile) : Elem → Prop
  | .image href _ _ _ _ =>
    match href with
    | some (.file p) => p ≠ [] → isSvgPath p = true →
        ∀ f, fs p = some f → ∀ ch d, f.svgParse = some (ch, d) →
          childrenClean fs ch = true
    | _ => True
  | .g _ children => childrenTargetsClean fs children
  | .other => True

def childrenTargetsClean (fs : List Char → Option FsFile) : List Elem → Prop
  | [] => True
  | e :: rest => elemTargetsClean fs e ∧ childrenTargetsClean fs rest

end

end PPT

open PPT

/-! ## Helper lemmas -/

theorem calc_meet_gt (iw ih bw bh : ℚ) (h : iw / ih > bw / bh) :
    calculate_fitted_dimensions iw ih bw bh .meet =
      (bw, bw / (iw / ih), (bw - bw) / 2, (bh - bw / (iw / ih)) / 2) := by
  simp [calculate_fitted_dimensions, h]

theorem calc_meet_le (iw ih bw bh : ℚ) (h : ¬ iw / ih > bw / bh) :
    calculate_fitted_dimensions iw ih bw bh .meet =
      (bh * (iw / ih), bh, (bw - bh * (iw / ih)) / 2, (bh - bh) / 2) := by
  simp [calculate_fitted_dimensions, h]

theorem calc_slice_gt (iw ih bw bh : ℚ) (h : iw / ih > bw / bh) :
    calculate_fitted_dimensions iw ih bw bh .slice =
      (bh * (iw / ih), bh, (bw - bh * (iw / ih)) / 2, (bh - bh) / 2) := by
  simp [calculate_fitted_dimensions, h]

theorem calc_slice_le (iw ih bw bh : ℚ) (h : ¬ iw / ih > bw / bh) :
    calculate_fitted_dimensions iw ih bw bh .slice =
      (bw, bw / (iw / ih), (bw - bw) / 2, (bh - bw / (iw / ih)) / 2) := by
  simp [calculate_fitted_dimensions, h]

theorem readN_at (pre suf : List Nat) (p n : Nat) (hp : pre.length = p) :
    readN (pre ++ suf) p n = suf.take n := by
  subst hp
  simp [readN, List.drop_left]

theorem segsBytes_cons (s : JSeg) (rest : List JSeg) :
    segsBytes (s :: rest) = s.bytes ++ segsBytes rest := rfl

theorem length_le_segsBytes (segs : List JSeg) :
    segs.length ≤ (segsBytes segs).length := by
  induction segs with
  | nil => simp [segsBytes]
  | cons s rest ih =>
    have h2 : 2 ≤ s.bytes.length := by
      cases s <;> simp [JSeg.bytes]
    simp only [segsBytes_cons, List.length_append, List.length_cons]
    omega

/-- One loop iteration of the marker scan steps over one well-formed
non-SOF segment. -/
theorem jpegScanF_step (s : JSeg) (hs : s.WF) (pre tail : List Nat) (f : Nat) :
    jpegScanF (pre ++ (s.bytes ++ tail)) (f + 1) pre.length
      = jpegScanF (pre ++ (s.bytes ++ tail)) f (pre.length + s.bytes.length) := by
  cases s with
  | standalone m =>
    have hread : readN (pre ++ (JSeg.bytes (.standalone m) ++ tail)) pre.length 2
        = [0xFF, m] := by
      rw [readN_at pre _ _ _ rfl]
      simp [JSeg.bytes]
    rcases hs with rfl | ⟨h1, h2⟩
    · simp only [jpegScanF, hread]
      norm_num [JSeg.bytes]
    · have hc : ¬(m = 0xC0 ∨ m = 0xC2) := by omega
      have hd9 : m ≠ 0xD9 := by omega
      have hd8 : m ≠ 0xD8 := by omega
      simp only [jpegScanF, hread]
      rw [if_neg (by norm_num : ¬((0xFF : Nat) ≠ 0xFF)), if_neg hc, if_neg hd9,
        if_neg hd8, if_pos ⟨h1, h2⟩]
      simp [JSeg.bytes]
  | lengthed m payload =>
    obtain ⟨hlt, hc0, hc2, hd8, hd9, hdd, hfit⟩ := hs
    have hread : readN (pre ++ (JSeg.bytes (.lengthed m payload) ++ tail)) pre.length 2
        = [0xFF, m] := by
      rw [readN_at pre _ _ _ rfl]
      simp [JSeg.bytes]
    have hlist : pre ++ (JSeg.bytes (.lengthed m payload) ++ tail)
        = (pre ++ [0xFF, m]) ++
          (((payload.length + 2) / 256 :: (payload.length + 2) % 256 :: payload) ++ tail) := by
      simp [JSeg.bytes]
    have hread2 : readN (pre ++ (JSeg.bytes (.lengthed m payload) ++ tail))
        (pre.length + 2) 2
        = [(payload.length + 2) / 256, (payload.length + 2) % 256] := by
      rw [hlist, readN_at _ _ _ _ (by simp)]
      simp
    have hbe : beVal [(payload.length + 2) / 256, (payload.length + 2) % 256]
        = payload.length + 2 := by
      simp [beVal, List.foldl]
      omega
    have hc : ¬(m = 0xC0 ∨ m = 0xC2) := by
      rintro (rfl | rfl) <;> simp at hc0 hc2
    simp only [jpegScanF, hread, hread2, hbe]
    have hff : ¬((0xFF : Nat) ≠ 0xFF) := by omega
    simp only [if_neg hff, if_neg hc, if_neg hd9, if_neg hd8, if_neg hdd]
    have hlen : pre.length + 2 + (payload.length + 2)
        = pre.length + (JSeg.bytes (.lengthed m payload)).length := by
      simp [JSeg.bytes]
      omega
    rw [hlen]

/-- The marker scan steps over any list of well-formed non-SOF segments. -/
theorem jpegScanF_skip_segs (segs : List JSeg) (hsegs : ∀ s ∈ segs, s.WF)
    (pre tail : List Nat) (f : Nat) :
    jpegScanF (pre ++ (segsBytes segs ++ tail)) (segs.length + f) pre.length
      = jpegScanF (pre ++ (segsBytes segs ++ tail)) f
          (pre.length + (segsBytes segs).length) := by
  induction segs generalizing pre with
  | nil => simp [segsBytes]
  | cons s rest ih =>
    have hs : s.WF := hsegs s (List.mem_cons_self s rest)
    have hrest : ∀ t ∈ rest, t.WF := fun t ht => hsegs t (List.mem_cons_of_mem s ht)
    have hshape : pre ++ (segsBytes (s :: rest) ++ tail)
        = pre ++ (s.bytes ++ (segsBytes rest ++ tail)) := by
      simp [segsBytes_cons]
    have hfuel : (s :: rest).length + f = (rest.length + f) + 1 := by
      simp
      omega
    rw [hshape, hfuel, jpegScanF_step s hs pre (segsBytes rest ++ tail) (rest.length + f)]
    have hshape2 : pre ++ (s.bytes ++ (segsBytes rest ++ tail))
        = (pre ++ s.bytes) ++ (segsBytes rest ++ tail) := by
      simp
    have hpos : pre.length + s.bytes.length = (pre ++ s.bytes).length := by simp
    rw [hshape2, hpos, ih hrest (pre ++ s.bytes)]
    have hpos2 : (pre ++ s.bytes).length + (segsBytes rest).length
        = pre.length + (segsBytes (s :: rest)).length := by
      simp [segsBytes_cons]
      omega
    rw [hpos2]

/-- On reaching a `C0`/`C2` start-of-frame, the scan returns the big-endian
width and height fields. -/
theorem jpegScanF_sof (pre rest : List Nat) (c l1 l2 p h1 h2 w1 w2 : Nat)
    (hc : c = 0xC0 ∨ c = 0xC2) (f : Nat) :
    jpegScanF (pre ++ ([0xFF, c, l1, l2, p, h1, h2, w1, w2] ++ rest)) (f + 1) pre.length
      = some (w1 * 256 + w2, h1 * 256 + h2) := by
  have hread : readN (pre ++ ([0xFF, c, l1, l2, p, h1, h2, w1, w2] ++ rest))
      pre.length 2 = [0xFF, c] := by
    rw [readN_at pre _ _ _ rfl]
    simp
  have hlist7 : pre ++ ([0xFF, c, l1, l2, p, h1, h2, w1, w2] ++ rest)
      = (pre ++ [0xFF, c, l1, l2, p, h1, h2]) ++ ([w1, w2] ++ rest) := by
    simp
  have hread7 : readN (pre ++ ([0xFF, c, l1, l2, p, h1, h2, w1, w2] ++ rest))
      (pre.length + 7) 2 = [w1, w2] := by
    rw [hlist7, readN_at _ _ _ _ (by simp)]
    simp
  have hlist5 : pre ++ ([0xFF, c, l1, l2, p, h1, h2, w1, w2] ++ rest)
      = (pre ++ [0xFF, c, l1, l2, p]) ++ ([h1, h2, w1, w2] ++ rest) := by
    simp
  have hread5 : readN (pre ++ ([0xFF, c, l1, l2, p, h1, h2, w1, w2] ++ rest))
      (pre.length + 5) 2 = [h1, h2] := by
    rw [hlist5, readN_at _ _ _ _ (by simp)]
    simp
  have hcsof : c = 0xC0 ∨ c = 0xC2 := hc
  simp only [jpegScanF, hread, hread5, hread7]
  have hff : ¬((0xFF : Nat) ≠ 0xFF) := by omega
  simp only [if_neg hff, if_pos hcsof]
  simp [beVal, List.foldl]

/-- On reaching `D9` (end of image) without a start-of-frame, the scan
terminates with no result. -/
theorem jpegScanF_eoi (pre junk : List Nat) (f : Nat) :
    jpegScanF (pre ++ ([0xFF, 0xD9] ++ junk)) (f + 1) pre.length = none := by
  have hread : readN (pre ++ ([0xFF, 0xD9] ++ junk)) pre.length 2 = [0xFF, 0xD9] := by
    rw [readN_at pre _ _ _ rfl]
    simp
  simp only [jpegScanF, hread]
  norm_num

/-! ## Claims C1 and C2 -/

/-- C1: under meet the branch is selected by comparing the intrinsic ratio to
the box ratio (ratio greater: width clamped to box width, height derived;
otherwise height clamped, width derived); slice uses the inverse selection;
both offsets equal `(box_dim - fitted_dim) / 2` without clamping; and the
2:1-in-100×100 examples evaluate to 100×50 @ (0,25) for meet and
200×100 @ (−50,0) for slice. -/
theorem C1_branch_selection_and_offsets (iw ih bw bh : ℚ)
    (hiw : 0 < iw) (hih : 0 < ih) (hbw : 0 < bw) (hbh : 0 < bh) :
    (iw / ih > bw / bh →
      PPT.calculate_fitted_dimensions iw ih bw bh .meet =
        (bw, bw / (iw / ih), (bw - bw) / 2, (bh - bw / (iw / ih)) / 2) ∧
      PPT.calculate_fitted_dimensions iw ih bw bh .slice =
        (bh * (iw / ih), bh, (bw - bh * (iw / ih)) / 2, (bh - bh) / 2)) ∧
    (¬ iw / ih > bw / bh →
      PPT.calculate_fitted_dimensions iw ih bw bh .meet =
        (bh * (iw / ih), bh, (bw - bh * (iw / ih)) / 2, (bh - bh) / 2) ∧
      PPT.calculate_fitted_dimensions iw ih bw bh .slice =
        (bw, bw / (iw / ih), (bw - bw) / 2, (bh - bw / (iw / ih)) / 2)) ∧
    PPT.calculate_fitted_dimensions 2 1 100 100 .meet = (100, 50, 0, 25) ∧
    PPT.calculate_fitted_dimensions 2 1 100 100 .slice = (200, 100, -50, 0) := by
  refine ⟨fun h => ⟨calc_meet_gt iw ih bw bh h, calc_slice_gt iw ih bw bh h⟩,
    fun h => ⟨calc_meet_le iw ih bw bh h, calc_slice_le iw ih bw bh h⟩, ?_, ?_⟩ <;>
    norm_num [PPT.calculate_fitted_dimensions]

theorem C1_branch_selection_and_offsets_witness :
    (0 : ℚ) < 2 ∧ (0 : ℚ) < 1 ∧ (0 : ℚ) < 100 ∧
    PPT.calculate_fitted_dimensions 2 1 100 100 .meet = (100, 50, 0, 25) :=
  ⟨by norm_num, by norm_num, by norm_num,
    (C1_branch_selection_and_offsets 2 1 100 100 (by norm_num) (by norm_num)
      (by norm_num) (by norm_num)).2.2.1⟩

/-- C2: for positive inputs, the meet-fitted rectangle is contained in the box
with equality on at least one axis, and the slice-fitted rectangle covers the
box with equality on at least one axis. -/
theorem C2_meet_contains_slice_covers (iw ih bw bh : ℚ)
    (hiw : 0 < iw) (hih : 0 < ih) (hbw : 0 < bw) (hbh : 0 < bh) :
    ((PPT.calculate_fitted_dimensions iw ih bw bh .meet).1 ≤ bw ∧
     (PPT.calculate_fitted_dimensions iw ih bw bh .meet).2.1 ≤ bh ∧
     ((PPT.calculate_fitted_dimensions iw ih bw bh .meet).1 = bw ∨
      (PPT.calculate_fitted_dimensions iw ih bw bh .meet).2.1 = bh)) ∧
    (bw ≤ (PPT.calculate_fitted_dimensions iw ih bw bh .slice).1 ∧
     bh ≤ (PPT.calculate_fitted_dimensions iw ih bw bh .slice).2.1 ∧
     ((PPT.calculate_fitted_dimensions iw ih bw bh .slice).1 = bw ∨
      (PPT.calculate_fitted_dimensions iw ih bw bh .slice).2.1 = bh)) := by
  have hr : 0 < iw / ih := div_pos hiw hih
  by_cases h : iw / ih > bw / bh
  · have hbwlt : bw < bh * (iw / ih) := by
      have h2 : bw / bh < iw / ih := h
      rw [div_lt_iff hbh] at h2
      nlinarith [h2]
    have hlt : bw / (iw / ih) ≤ bh := by
      rw [div_le_iff hr]
      nlinarith [hbwlt]
    rw [calc_meet_gt iw ih bw bh h, calc_slice_gt iw ih bw bh h]
    exact ⟨⟨le_refl bw, hlt, Or.inl rfl⟩, ⟨le_of_lt hbwlt, le_refl bh, Or.inr rfl⟩⟩
  · push_neg at h
    have hle : bh * (iw / ih) ≤ bw := by
      rw [le_div_iff hbh] at h
      nlinarith [h]
    have hbhle : bh ≤ bw / (iw / ih) := by
      rw [le_div_iff hr]
      nlinarith [hle]
    rw [calc_meet_le iw ih bw bh (not_lt.mpr h),
      calc_slice_le iw ih bw bh (not_lt.mpr h)]
    exact ⟨⟨hle, le_refl bh, Or.inr rfl⟩, ⟨le_refl bw, hbhle, Or.inl rfl⟩⟩

theorem C2_meet_contains_slice_covers_witness :
    (0 : ℚ) < 2 ∧ (0 : ℚ) < 1 ∧ (0 : ℚ) < 100 ∧
    (PPT.calculate_fitted_dimensions 2 1 100 100 .meet).1 ≤ 100 :=
  ⟨by norm_num, by norm_num, by norm_num,
    (C2_meet_contains_slice_covers 2 1 100 100 (by norm_num) (by norm_num)
      (by norm_num) (by norm_num)).1.1⟩

/-! ## Claim C3: the raster signature decoders -/

theorem slice_of_take64 (bs : List Nat) (a b : Nat) (hab : a + b ≤ 64) :
    ((bs.take 64).drop a).take b = (bs.drop a).take b := by
  rw [List.drop_take, List.take_take]
  congr 1
  omega

/-- From offset 2, with any fuel beyond the segment count, the scan crosses
all well-formed non-SOF segments and returns the SOF dimensions. -/
theorem jpeg_scan_to_sof (segs : List JSeg) (hsegs : ∀ s ∈ segs, s.WF)
    (c l1 l2 p h1 h2 w1 w2 : Nat) (hc : c = 0xC0 ∨ c = 0xC2)
    (sofRest : List Nat) (g : Nat) :
    jpegScanF ([0xFF, 0xD8] ++ (segsBytes segs
        ++ ([0xFF, c, l1, l2, p, h1, h2, w1, w2] ++ sofRest)))
      (segs.length + (g + 1)) 2 = some (w1 * 256 + w2, h1 * 256 + h2) := by
  have hstep := jpegScanF_skip_segs segs hsegs [0xFF, 0xD8]
      ([0xFF, c, l1, l2, p, h1, h2, w1, w2] ++ sofRest) (g + 1)
  have hpre : ([0xFF, 0xD8] : List Nat).length = 2 := rfl
  rw [hpre] at hstep
  rw [hstep]
  have hsh2 : ([0xFF, 0xD8] : List Nat) ++ (segsBytes segs
      ++ ([0xFF, c, l1, l2, p, h1, h2, w1, w2] ++ sofRest))
      = ([0xFF, 0xD8] ++ segsBytes segs)
        ++ ([0xFF, c, l1, l2, p, h1, h2, w1, w2] ++ sofRest) := by
    simp
  have hpos : 2 + (segsBytes segs).length
      = ([0xFF, 0xD8] ++ segsBytes segs).length := by
    simp
    omega
  rw [hpos, hsh2,
    jpegScanF_sof ([0xFF, 0xD8] ++ segsBytes segs) sofRest c l1 l2 p h1 h2 w1 w2 hc g]

/-- From offset 2, with any fuel beyond the segment count, the scan crosses
all well-formed non-SOF segments and stops without a result at `D9`. -/
theorem jpeg_scan_to_eoi (segs : List JSeg) (hsegs : ∀ s ∈ segs, s.WF)
    (junk : List Nat) (g : Nat) :
    jpegScanF ([0xFF, 0xD8] ++ (segsBytes segs ++ ([0xFF, 0xD9] ++ junk)))
      (segs.length + (g + 1)) 2 = none := by
  have hstep := jpegScanF_skip_segs segs hsegs [0xFF, 0xD8] ([0xFF, 0xD9] ++ junk) (g + 1)
  have hpre : ([0xFF, 0xD8] : List Nat).length = 2 := rfl
  rw [hpre] at hstep
  rw [hstep]
  have hsh2 : ([0xFF, 0xD8] : List Nat) ++ (segsBytes segs ++ ([0xFF, 0xD9] ++ junk))
      = ([0xFF, 0xD8] ++ segsBytes segs) ++ ([0xFF, 0xD9] ++ junk) := by
    simp
  have hpos : 2 + (segsBytes segs).length
      = ([0xFF, 0xD8] ++ segsBytes segs).length := by
    simp
    omega
  rw [hpos, hsh2, jpegScanF_eoi ([0xFF, 0xD8] ++ segsBytes segs) junk g]

/-- C3: the signature decoder reads PNG dimensions as the big-endian 32-bit
integers at offsets 16 and 20 behind the 8-byte magic; a JPEG built from the
`FF D8` magic, any sequence of well-formed non-SOF segments (lengthed
segments skipped by their length field, standalone `D8`/`D0`–`D7` markers
skipped without one) and a `C0`/`C2` start-of-frame yields exactly the
big-endian width and height stored after the frame's length and precision
bytes; and `D9` in marker position terminates the scan with no result. -/
theorem C3_signature_decoders (mid w4 h4 rest : List Nat)
    (hm : mid.length = 8) (hw : w4.length = 4) (hh : h4.length = 4)
    (segs : List JSeg) (hsegs : ∀ s ∈ segs, s.WF)
    (c l1 l2 p h1 h2 w1 w2 : Nat) (hc : c = 0xC0 ∨ c = 0xC2)
    (sofRest junk : List Nat) :
    get_image_dimensions_basic (pngMagic ++ mid ++ w4 ++ h4 ++ rest)
      = some ((beVal w4 : ℚ), (beVal h4 : ℚ)) ∧
    get_image_dimensions_basic ([0xFF, 0xD8] ++ segsBytes segs
        ++ ([0xFF, c, l1, l2, p, h1, h2, w1, w2] ++ sofRest))
      = some (((w1 * 256 + w2 : Nat) : ℚ), ((h1 * 256 + h2 : Nat) : ℚ)) ∧
    get_image_dimensions_basic ([0xFF, 0xD8] ++ segsBytes segs ++ ([0xFF, 0xD9] ++ junk))
      = none := by
  refine ⟨?_, ?_, ?_⟩
  · -- PNG branch
    have h8 : ((pngMagic ++ mid ++ w4 ++ h4 ++ rest).take 64).take 8 = pngMagic := by
      rw [List.take_take]
      norm_num
      exact List.take_left' (by simp [pngMagic])
    have hw4 : (((pngMagic ++ mid ++ w4 ++ h4 ++ rest).take 64).drop 16).take 4 = w4 := by
      rw [slice_of_take64 _ _ _ (by norm_num)]
      have h1 : pngMagic ++ mid ++ w4 ++ h4 ++ rest
          = (pngMagic ++ mid) ++ (w4 ++ (h4 ++ rest)) := by simp
      rw [h1, List.drop_left' (by simp [pngMagic, hm])]
      exact List.take_left' hw
    have hh4 : (((pngMagic ++ mid ++ w4 ++ h4 ++ rest).take 64).drop 20).take 4 = h4 := by
      rw [slice_of_take64 _ _ _ (by norm_num)]
      have h1 : pngMagic ++ mid ++ w4 ++ h4 ++ rest
          = ((pngMagic ++ mid) ++ w4) ++ (h4 ++ rest) := by simp
      rw [h1, List.drop_left' (by simp [pngMagic, hm, hw])]
      exact List.take_left' hh
    simp only [get_image_dimensions_basic, h8, hw4, hh4]
    simp
  · -- JPEG with SOF
    have h8 : (([0xFF, 0xD8] ++ segsBytes segs
          ++ ([0xFF, c, l1, l2, p, h1, h2, w1, w2] ++ sofRest)).take 64).take 8
        ≠ pngMagic := by
      rw [List.take_take]
      norm_num
      intro hcontra
      have := congrArg (fun l => l.head?) hcontra
      simp [pngMagic] at this
    have htk2 : (([0xFF, 0xD8] ++ segsBytes segs
          ++ ([0xFF, c, l1, l2, p, h1, h2, w1, w2] ++ sofRest)).take 64).take 2
        = [0xFF, 0xD8] := by
      rw [List.take_take]
      norm_num
    have hsh : [0xFF, 0xD8] ++ segsBytes segs
          ++ ([0xFF, c, l1, l2, p, h1, h2, w1, w2] ++ sofRest)
        = [0xFF, 0xD8] ++ (segsBytes segs
          ++ ([0xFF, c, l1, l2, p, h1, h2, w1, w2] ++ sofRest)) := by simp
    have hscan : jpegScanF ([0xFF, 0xD8] ++ segsBytes segs
          ++ ([0xFF, c, l1, l2, p, h1, h2, w1, w2] ++ sofRest))
          (([0xFF, 0xD8] ++ segsBytes segs
            ++ ([0xFF, c, l1, l2, p, h1, h2, w1, w2] ++ sofRest)).length + 1) 2
        = some (w1 * 256 + w2, h1 * 256 + h2) := by
      rw [hsh]
      have hlen : segs.length ≤ ([0xFF, 0xD8] ++ (segsBytes segs
          ++ ([0xFF, c, l1, l2, p, h1, h2, w1, w2] ++ sofRest))).length := by
        have := length_le_segsBytes segs
        simp
        omega
      have hfe : ([0xFF, 0xD8] ++ (segsBytes segs
            ++ ([0xFF, c, l1, l2, p, h1, h2, w1, w2] ++ sofRest))).length + 1
          = segs.length + ((([0xFF, 0xD8] ++ (segsBytes segs
            ++ ([0xFF, c, l1, l2, p, h1, h2, w1, w2] ++ sofRest))).length
              - segs.length) + 1) := by
        omega
      rw [hfe]
      exact jpeg_scan_to_sof segs hsegs c l1 l2 p h1 h2 w1 w2 hc sofRest _
    simp only [get_image_dimensions_basic, if_neg h8, htk2, hscan, Option.map_some']
    simp
  · -- JPEG ending in D9
    have h8 : (([0xFF, 0xD8] ++ segsBytes segs ++ ([0xFF, 0xD9] ++ junk)).take 64).take 8
        ≠ pngMagic := by
      rw [List.take_take]
      norm_num
      intro hcontra
      have := congrArg (fun l => l.head?) hcontra
      simp [pngMagic] at this
    have htk2 : (([0xFF, 0xD8] ++ segsBytes segs ++ ([0xFF, 0xD9] ++ junk)).take 64).take 2
        = [0xFF, 0xD8] := by
      rw [List.take_take]
      norm_num
    have hsh : [0xFF, 0xD8] ++ segsBytes segs ++ ([0xFF, 0xD9] ++ junk)
        = [0xFF, 0xD8] ++ (segsBytes segs ++ ([0xFF, 0xD9] ++ junk)) := by simp
    have hscan : jpegScanF ([0xFF, 0xD8] ++ segsBytes segs ++ ([0xFF, 0xD9] ++ junk))
          (([0xFF, 0xD8] ++ segsBytes segs ++ ([0xFF, 0xD9] ++ junk)).length + 1) 2
        = none := by
      rw [hsh]
      have hlen : segs.length
          ≤ ([0xFF, 0xD8] ++ (segsBytes segs ++ ([0xFF, 0xD9] ++ junk))).length := by
        have := length_le_segsBytes segs
        simp
        omega
      have hfe : ([0xFF, 0xD8] ++ (segsBytes segs ++ ([0xFF, 0xD9] ++ junk))).length + 1
          = segs.length + ((([0xFF, 0xD8] ++ (segsBytes segs
            ++ ([0xFF, 0xD9] ++ junk))).length - segs.length) + 1) := by
        omega
      rw [hfe]
      exact jpeg_scan_to_eoi segs hsegs junk _
    simp only [get_image_dimensions_basic, if_neg h8, htk2, hscan, Option.map_none']
    simp

theorem C3_signature_decoders_witness :
    ([0x00, 0x00, 0x00, 0x0D, 0x49, 0x48, 0x44, 0x52] : List Nat).length = 8 ∧
    get_image_dimensions_basic
        (pngMagic ++ [0x00, 0x00, 0x00, 0x0D, 0x49, 0x48, 0x44, 0x52]
          ++ [0, 0, 0, 5] ++ [0, 0, 0, 7] ++ [1, 2, 3]) = some ((5 : ℚ), (7 : ℚ)) ∧
    get_image_dimensions_basic
        ([0xFF, 0xD8] ++ segsBytes [JSeg.lengthed 0xE0 [0x4A, 0x46]]
          ++ ([0xFF, 0xC0, 0, 11, 8, 0, 2, 0, 3] ++ [0xFF, 0xD9]))
      = some ((3 : ℚ), (2 : ℚ)) := by
  have h := C3_signature_decoders
    [0x00, 0x00, 0x00, 0x0D, 0x49, 0x48, 0x44, 0x52] [0, 0, 0, 5] [0, 0, 0, 7] [1, 2, 3]
    (by decide) (by decide) (by decide)
    [JSeg.lengthed 0xE0 [0x4A, 0x46]] (by decide)
    0xC0 0 11 8 0 2 0 3 (Or.inl rfl) [0xFF, 0xD9] []
  refine ⟨by decide, ?_, ?_⟩
  · have h1 := h.1
    rw [h1]
    norm_num [beVal]
  · have h2 := h.2.1
    rw [h2]
    norm_num

/-! ## Claims C4, C5, C8: the inline-representation prober -/

theorem viewBoxScan_some_of (cs : List Char) (k : Nat) (wh : ℚ × ℚ)
    (h : matchViewBoxAt (cs.drop k) = some wh) :
    ∃ wh', viewBoxScan cs = some wh' := by
  induction cs generalizing k with
  | nil =>
    rw [List.drop_nil] at h
    have hnone : matchViewBoxAt ([] : List Char) = none := by decide
    rw [hnone] at h
    exact absurd h (by simp)
  | cons c cs ih =>
    cases hm : matchViewBoxAt (c :: cs) with
    | some w => exact ⟨w, by simp [viewBoxScan, hm]⟩
    | none =>
      cases k with
      | zero =>
        rw [List.drop_zero] at h
        rw [hm] at h
        exact absurd h (by simp)
      | succ k' =>
        have := ih k' (by simpa using h)
        simpa [viewBoxScan, hm] using this

/-- C4 counterexample: with the image library unavailable, a valid inline
JPEG payload (here a minimal 3×2 baseline JPEG that the file-based
signature decoder does decode) yields no dimensions from the inline-bytes
prober, contradicting the claim that the JPEG signature decoder is applied
to in-memory bytes. -/
theorem C4_counterexample_jpeg_inline :
    get_image_dimensions_basic
        [0xFF, 0xD8, 0xFF, 0xC0, 0, 11, 8, 0, 2, 0, 3, 0xFF, 0xD9]
      = some ((3 : ℚ), (2 : ℚ)) ∧
    get_image_dimensions_from_base64_noPIL ("jpeg".toList)
        [0xFF, 0xD8, 0xFF, 0xC0, 0, 11, 8, 0, 2, 0, 3, 0xFF, 0xD9]
      = none := by
  constructor
  · decide
  · decide

/-- C4 (amended): with the image library unavailable, the inline-bytes
prober applies only the PNG signature decoder; any payload not starting
with the PNG magic — in particular any valid JPEG — yields Unknown. -/
theorem C4_inline_no_jpeg_fallback (mt : List Char) (payload : List Nat)
    (hnotpng : payload.take 8 ≠ pngMagic) :
    get_image_dimensions_from_base64_noPIL mt payload = none := by
  simp only [get_image_dimensions_from_base64_noPIL, if_neg hnotpng, ite_self]

theorem C4_inline_no_jpeg_fallback_witness :
    ([0xFF, 0xD8, 0xFF, 0xC0, 0, 11, 8, 0, 2, 0, 3, 0xFF, 0xD9] : List Nat).take 8
        ≠ pngMagic ∧
    get_image_dimensions_from_base64_noPIL ("jpeg".toList)
        [0xFF, 0xD8, 0xFF, 0xC0, 0, 11, 8, 0, 2, 0, 3, 0xFF, 0xD9] = none :=
  ⟨by decide,
    C4_inline_no_jpeg_fallback ("jpeg".toList)
      [0xFF, 0xD8, 0xFF, 0xC0, 0, 11, 8, 0, 2, 0, 3, 0xFF, 0xD9] (by decide)⟩

/-- C5: for an inline SVG byte-representation, the prober's result is
exactly the scan of the first 2048 characters of the decoded payload for a
`viewBox` declaration (the fall-through call cannot match the `svg+xml`
media type, so a missing declaration yields Unknown); whenever the pattern
matches at any position inside that window the prober returns dimensions;
and on a concrete payload with (resp. without) a `viewBox` declaration it
returns the declared size (resp. Unknown). -/
theorem C5_svg_viewbox_window (text : List Char) (payload : List Nat) :
    get_image_dimensions_dataSvg text payload = viewBoxScan (text.take 2048) ∧
    (∀ k wh, matchViewBoxAt ((text.take 2048).drop k) = some wh →
      ∃ wh', get_image_dimensions_dataSvg text payload = some wh') ∧
    get_image_dimensions_dataSvg
        ("<svg viewBox=\x220 0 800 600\x22></svg>".toList) payload
      = some ((800 : ℚ), (600 : ℚ)) ∧
    get_image_dimensions_dataSvg ("<svg width=\x22800\x22></svg>".toList) payload
      = none := by
  have hmain : ∀ t : List Char,
      get_image_dimensions_dataSvg t payload = viewBoxScan (t.take 2048) := by
    intro t
    unfold get_image_dimensions_dataSvg
    cases hv : viewBoxScan (t.take 2048) with
    | some wh => rfl
    | none =>
      simp only []
      unfold get_image_dimensions_from_base64_noPIL
      rw [if_neg]
      intro ⟨_, hall, _⟩
      exact absurd hall (by decide)
  refine ⟨hmain text, ?_, ?_, ?_⟩
  · intro k wh h
    obtain ⟨wh', hs⟩ := viewBoxScan_some_of _ k wh h
    exact ⟨wh', by rw [hmain text, hs]⟩
  · rw [hmain]
    have hscan : viewBoxScan (("<svg viewBox=\x220 0 800 600\x22></svg>".toList).take 2048)
        = some (decVal ['8', '0', '0'] [], decVal ['6', '0', '0'] []) := rfl
    rw [hscan]
    have h800 : digitsVal ['8', '0', '0'] = 800 := by decide
    have h600 : digitsVal ['6', '0', '0'] = 600 := by decide
    have h0 : digitsVal [] = 0 := by decide
    simp [decVal, h800, h600, h0]
  · rw [hmain]
    have hscan : viewBoxScan (("<svg width=\x22800\x22></svg>".toList).take 2048)
        = none := rfl
    rw [hscan]

/-- C8 counterexample: a truncated stream that begins with the full PNG
magic but ends there is malformed, yet the signature decoder returns the
dimension pair (0, 0) — read from the empty slices at offsets 16/20 —
rather than Unknown. -/
theorem C8_counterexample_truncated_png :
    get_image_dimensions_basic [0x89, 0x50, 0x4E, 0x47, 0x0D, 0x0A, 0x1A, 0x0A]
        = some ((0 : ℚ), (0 : ℚ)) ∧
    some ((0 : ℚ), (0 : ℚ)) ≠ (none : Option (ℚ × ℚ)) := by
  constructor
  · decide
  · decide

/-- C8 (amended): the dimension extraction is total by construction and,
for every stream matching neither the PNG magic nor the JPEG magic (and
every inline payload not starting with the PNG magic), returns Unknown;
a stream that does start with a valid magic but is truncated may instead
return a degenerate pair read from the truncated data. -/
theorem C8_nonmagic_streams_unknown (bs : List Nat) (mt : List Char)
    (payload : List Nat)
    (h8 : (bs.take 64).take 8 ≠ pngMagic)
    (h2 : (bs.take 64).take 2 ≠ [0xFF, 0xD8])
    (hp : payload.take 8 ≠ pngMagic) :
    get_image_dimensions_basic bs = none ∧
    get_image_dimensions_from_base64_noPIL mt payload = none := by
  constructor
  · unfold get_image_dimensions_basic
    rw [if_neg h8, if_neg h2]
  · exact C4_inline_no_jpeg_fallback mt payload hp

/-! ## Claims C6 and C10: the Geometry Fixer -/

theorem calc_pos (iw ih bw bh : ℚ) (hiw : 0 < iw) (hih : 0 < ih)
    (hbw : 0 < bw) (hbh : 0 < bh) (mode : FitMode) :
    0 < (calculate_fitted_dimensions iw ih bw bh mode).1 ∧
    0 < (calculate_fitted_dimensions iw ih bw bh mode).2.1 := by
  have hr : 0 < iw / ih := div_pos hiw hih
  cases mode <;> by_cases h : iw / ih > bw / bh
  · rw [calc_meet_gt _ _ _ _ h]
    exact ⟨hbw, div_pos hbw hr⟩
  · rw [calc_meet_le _ _ _ _ h]
    exact ⟨mul_pos hbh hr, hbh⟩
  · rw [calc_slice_gt _ _ _ _ h]
    exact ⟨mul_pos hbh hr, hbh⟩
  · rw [calc_slice_le _ _ _ _ h]
    exact ⟨hbw, div_pos hbw hr⟩

theorem calc_ratio (iw ih bw bh : ℚ) (hiw : 0 < iw) (hih : 0 < ih)
    (hbw : 0 < bw) (hbh : 0 < bh) (mode : FitMode) :
    (calculate_fitted_dimensions iw ih bw bh mode).1
      = (calculate_fitted_dimensions iw ih bw bh mode).2.1 * (iw / ih) := by
  have hr : 0 < iw / ih := div_pos hiw hih
  cases mode <;> by_cases h : iw / ih > bw / bh
  · rw [calc_meet_gt _ _ _ _ h]
    field_simp
  · rw [calc_meet_le _ _ _ _ h]
  · rw [calc_slice_gt _ _ _ _ h]
  · rw [calc_slice_le _ _ _ _ h]
    field_simp

/-- Re-fitting under meet a box that already has the intrinsic ratio is the
identity with zero offsets. -/
theorem calc_on_fitted (iw ih bw bh : ℚ) (hiw : 0 < iw) (hih : 0 < ih)
    (hbw : 0 < bw) (hbh : 0 < bh) (mode : FitMode) :
    calculate_fitted_dimensions iw ih
        (calculate_fitted_dimensions iw ih bw bh mode).1
        (calculate_fitted_dimensions iw ih bw bh mode).2.1 .meet
      = ((calculate_fitted_dimensions iw ih bw bh mode).1,
         (calculate_fitted_dimensions iw ih bw bh mode).2.1, 0, 0) := by
  obtain ⟨hw, hh⟩ := calc_pos iw ih bw bh hiw hih hbw hbh mode
  have hrat := calc_ratio iw ih bw bh hiw hih hbw hbh mode
  have hh0 : (calculate_fitted_dimensions iw ih bw bh mode).2.1 ≠ 0 := ne_of_gt hh
  have hbr : (calculate_fitted_dimensions iw ih bw bh mode).1
      / (calculate_fitted_dimensions iw ih bw bh mode).2.1 = iw / ih := by
    rw [hrat, mul_comm, mul_div_assoc, div_self hh0, mul_one]
  have hnotgt : ¬ iw / ih > (calculate_fitted_dimensions iw ih bw bh mode).1
      / (calculate_fitted_dimensions iw ih bw bh mode).2.1 := by
    rw [hbr]
    exact lt_irrefl _
  rw [calc_meet_le _ _ _ _ hnotgt, ← hrat]
  norm_num

theorem fixNode_cases (n : ImageNode) :
    fixNode n = (n, false) ∨
    ∃ iw ih, n.dims = some (iw, ih) ∧ n.hasHref = true ∧
      0 < n.width ∧ 0 < n.height ∧ n.parSkip = false ∧
      ¬(|(calculate_fitted_dimensions iw ih n.width n.height n.mode).1 - n.width| < 1/2 ∧
        |(calculate_fitted_dimensions iw ih n.width n.height n.mode).2.1 - n.height| < 1/2) ∧
      fixNode n = (ImageNode.mk n.hasHref
        (round1 (n.x + (calculate_fitted_dimensions iw ih n.width n.height n.mode).2.2.1))
        (round1 (n.y + (calculate_fitted_dimensions iw ih n.width n.height n.mode).2.2.2))
        (round1 (calculate_fitted_dimensions iw ih n.width n.height n.mode).1)
        (round1 (calculate_fitted_dimensions iw ih n.width n.height n.mode).2.1)
        none n.dims, true) := by
  by_cases h1 : n.hasHref = false
  · left
    unfold fixNode
    rw [if_pos h1]
  by_cases h2 : n.width ≤ 0 ∨ n.height ≤ 0
  · left
    unfold fixNode
    rw [if_neg h1, if_pos h2]
  by_cases h3 : n.parSkip = true
  · left
    unfold fixNode
    rw [if_neg h1, if_neg h2, if_pos h3]
  cases hd : n.dims with
  | none =>
    left
    unfold fixNode
    rw [if_neg h1, if_neg h2, if_neg h3, hd]
  | some pr =>
    obtain ⟨iw, ih⟩ := pr
    by_cases h5 :
        |(calculate_fitted_dimensions iw ih n.width n.height n.mode).1 - n.width| < 1/2 ∧
        |(calculate_fitted_dimensions iw ih n.width n.height n.mode).2.1 - n.height| < 1/2
    · left
      unfold fixNode
      rw [if_neg h1, if_neg h2, if_neg h3, hd]
      simp only []
      rw [if_pos h5]
    · right
      have h2' : 0 < n.width ∧ 0 < n.height := by
        push_neg at h2
        exact ⟨h2.1, h2.2⟩
      refine ⟨iw, ih, rfl, by simpa using h1, h2'.1, h2'.2, by simpa using h3, h5, ?_⟩
      unfold fixNode
      rw [if_neg h1, if_neg h2, if_neg h3, hd]
      simp only []
      rw [if_neg h5]

theorem fixNode_of_false (n : ImageNode) (h : (fixNode n).2 = false) :
    fixNode n = (n, false) := by
  rcases fixNode_cases n with hc | ⟨iw, ih, _, _, _, _, _, _, hc⟩
  · exact hc
  · rw [hc] at h
    simp at h

theorem mode_of_par_none (n : ImageNode) (h : n.par = none) :
    n.mode = .meet ∧ n.parSkip = false := by
  constructor
  · simp only [ImageNode.mode, ImageNode.parValue, h, Option.getD_none]
    decide
  · simp only [ImageNode.parSkip, ImageNode.parValue, h, Option.getD_none]
    decide

/-- A processable node whose box is already exactly its own fitted
rectangle is skipped by the tolerance guard. -/
theorem fixNode_skips_exact (m : ImageNode) (iw ih : ℚ)
    (hd : m.dims = some (iw, ih))
    (hfit : calculate_fitted_dimensions iw ih m.width m.height m.mode
        = (m.width, m.height, 0, 0)) :
    (fixNode m).2 = false := by
  by_cases h1 : m.hasHref = false
  · unfold fixNode
    rw [if_pos h1]
  by_cases h2 : m.width ≤ 0 ∨ m.height ≤ 0
  · unfold fixNode
    rw [if_neg h1, if_pos h2]
  by_cases h3 : m.parSkip = true
  · unfold fixNode
    rw [if_neg h1, if_neg h2, if_pos h3]
  have hguard : |(calculate_fitted_dimensions iw ih m.width m.height m.mode).1
        - m.width| < 1/2 ∧
      |(calculate_fitted_dimensions iw ih m.width m.height m.mode).2.1 - m.height|
        < 1/2 := by
    rw [hfit]
    norm_num
  unfold fixNode
  rw [if_neg h1, if_neg h2, if_neg h3, hd]
  simp only []
  rw [if_pos hguard]

/-- Evaluation rule for a node the Fixer rewrites. -/
theorem fixNode_eval_fix (n : ImageNode) (iw ih : ℚ)
    (hd : n.dims = some (iw, ih)) (hhref : n.hasHref = true)
    (hbox : ¬(n.width ≤ 0 ∨ n.height ≤ 0)) (hskip : ¬(n.parSkip = true))
    (hguard : ¬(|(calculate_fitted_dimensions iw ih n.width n.height n.mode).1
          - n.width| < 1/2 ∧
        |(calculate_fitted_dimensions iw ih n.width n.height n.mode).2.1
          - n.height| < 1/2)) :
    fixNode n = (ImageNode.mk n.hasHref
      (round1 (n.x + (calculate_fitted_dimensions iw ih n.width n.height n.mode).2.2.1))
      (round1 (n.y + (calculate_fitted_dimensions iw ih n.width n.height n.mode).2.2.2))
      (round1 (calculate_fitted_dimensions iw ih n.width n.height n.mode).1)
      (round1 (calculate_fitted_dimensions iw ih n.width n.height n.mode).2.1)
      none n.dims, true) := by
  unfold fixNode
  rw [if_neg (by rw [hhref]; simp : ¬(n.hasHref = false)), if_neg hbox, if_neg hskip, hd]
  simp only []
  rw [if_neg hguard]

/-- After a fix, the node's box carries the intrinsic ratio, so the second
pass skips it — provided rounding did not move the fitted size. -/
theorem fixNode_second_skip (n : ImageNode)
    (hdims : ∀ iw ih, n.dims = some (iw, ih) → 0 < iw ∧ 0 < ih)
    (hexact : (fixNode n).2 = true →
      round1 n.fitted.1 = n.fitted.1 ∧ round1 n.fitted.2 = n.fitted.2) :
    (fixNode (fixNode n).1).2 = false := by
  rcases fixNode_cases n with hc | ⟨iw, ih, hd, hhref, hw, hh, hskip, hguard, hc⟩
  · rw [hc]
    simp only []
    rw [hc]
  · obtain ⟨hiw, hih⟩ := hdims iw ih hd
    have hfix : (fixNode n).2 = true := by rw [hc]
    have hfit : n.fitted
        = ((calculate_fitted_dimensions iw ih n.width n.height n.mode).1,
          (calculate_fitted_dimensions iw ih n.width n.height n.mode).2.1) := by
      unfold ImageNode.fitted
      rw [hd]
    obtain ⟨hrw, hrh⟩ := hexact hfix
    rw [hfit] at hrw hrh
    simp only [] at hrw hrh
    rw [hc]
    simp only []
    rw [hrw, hrh]
    exact fixNode_skips_exact _ iw ih hd
      (calc_on_fitted iw ih n.width n.height hiw hih hw hh n.mode)

theorem fix_doc_cons (n : ImageNode) (rest : List ImageNode) :
    fix_image_aspect_in_svg (n :: rest)
      = ((fixNode n).1 :: (fix_image_aspect_in_svg rest).1,
        (if (fixNode n).2 then 1 else 0) + (fix_image_aspect_in_svg rest).2) := rfl

/-- C6 counterexample: on a document with one image node — intrinsic size
1×100, box 50×14.4, no `preserveAspectRatio` attribute — the first Fixer
run rewrites the box to 0.1×14.4 (the fitted width 0.144 rounds to 0.1),
which flips the meet branch on the second run and yields fitted size
0.1×10, differing from 14.4 by 4.4 ≥ 0.5: the second run performs one
mutation, not zero. -/
theorem C6_counterexample_second_run_mutates :
    (fix_image_aspect_in_svg
        [ImageNode.mk true 0 0 50 (72/5) none (some (1, 100))]).2 = 1 ∧
    (fix_image_aspect_in_svg
        (fix_image_aspect_in_svg
          [ImageNode.mk true 0 0 50 (72/5) none (some (1, 100))]).1).2 = 1 ∧
    ¬ (fix_image_aspect_in_svg
        (fix_image_aspect_in_svg
          [ImageNode.mk true 0 0 50 (72/5) none (some (1, 100))]).1).2 = 0 := by
  have hm0 : (ImageNode.mk true 0 0 50 (72/5) none (some ((1 : ℚ), (100 : ℚ)))).mode
      = FitMode.meet := by decide
  have hc0 : calculate_fitted_dimensions 1 100 50 (72/5) FitMode.meet
      = (18/125, 72/5, 3116/125, 0) := by
    norm_num [calculate_fitted_dimensions]
  have e1 : fixNode (ImageNode.mk true 0 0 50 (72/5) none (some (1, 100)))
      = (ImageNode.mk true (249/10) 0 (1/10) (72/5) none (some (1, 100)), true) := by
    rw [fixNode_eval_fix _ 1 100 rfl rfl (by norm_num) (by decide)
      (by rw [hm0, hc0]
          norm_num [abs_sub_lt_iff]
          rw [abs_of_nonneg] <;> norm_num)]
    rw [hm0, hc0]
    simp only [Prod.mk.injEq, ImageNode.mk.injEq]
    norm_num [round1]
  have hm1 : (ImageNode.mk true (249/10) 0 (1/10) (72/5) none
      (some ((1 : ℚ), (100 : ℚ)))).mode = FitMode.meet := by decide
  have hc1 : calculate_fitted_dimensions 1 100 (1/10) (72/5) FitMode.meet
      = (1/10, 10, 0, 11/5) := by
    norm_num [calculate_fitted_dimensions]
  have e2 : (fixNode (ImageNode.mk true (249/10) 0 (1/10) (72/5) none
      (some (1, 100)))).2 = true := by
    rw [fixNode_eval_fix _ 1 100 rfl rfl (by norm_num) (by decide)
      (by rw [hm1, hc1]
          norm_num [abs_sub_lt_iff]
          rw [abs_of_nonneg] <;> norm_num)]
  have hinner : fix_image_aspect_in_svg
      [ImageNode.mk true 0 0 50 (72/5) none (some (1, 100))]
      = ([ImageNode.mk true (249/10) 0 (1/10) (72/5) none (some (1, 100))], 1) := by
    rw [fix_doc_cons, e1]
    simp [fix_image_aspect_in_svg]
  refine ⟨by rw [hinner], ?_, ?_⟩
  · rw [hinner, fix_doc_cons, e2]
    simp [fix_image_aspect_in_svg]
  · rw [hinner, fix_doc_cons, e2]
    simp [fix_image_aspect_in_svg]

/-- C6 (amended): the Geometry Fixer's second run performs zero mutations
on every document whose probed dimensions are positive and whose fitted
rectangles are exact at one decimal place (unchanged by the `%.1f`
rounding) for each node the first run fixes; without that exactness
condition a second run can mutate again (see the counterexample). -/
theorem C6_second_run_zero_when_exact (doc : List ImageNode)
    (hdims : ∀ n ∈ doc, ∀ iw ih, n.dims = some (iw, ih) → 0 < iw ∧ 0 < ih)
    (hexact : ∀ n ∈ doc, (fixNode n).2 = true →
      round1 n.fitted.1 = n.fitted.1 ∧ round1 n.fitted.2 = n.fitted.2) :
    (fix_image_aspect_in_svg (fix_image_aspect_in_svg doc).1).2 = 0 := by
  induction doc with
  | nil => rfl
  | cons n rest ih =>
    rw [fix_doc_cons]
    simp only []
    rw [fix_doc_cons]
    have h1 := fixNode_second_skip n
      (hdims n (List.mem_cons_self n rest))
      (hexact n (List.mem_cons_self n rest))
    rw [h1]
    have h2 := ih
      (fun m hm => hdims m (List.mem_cons_of_mem n hm))
      (fun m hm => hexact m (List.mem_cons_of_mem n hm))
    rw [h2]
    simp

theorem C6_second_run_zero_when_exact_witness :
    (∀ n ∈ [PPT.ImageNode.mk true 0 0 100 100 none (some ((2 : ℚ), (1 : ℚ)))],
      ∀ iw ih, n.dims = some (iw, ih) → 0 < iw ∧ 0 < ih) ∧
    (fix_image_aspect_in_svg (fix_image_aspect_in_svg
        [PPT.ImageNode.mk true 0 0 100 100 none (some (2, 1))]).1).2 = 0 := by
  have hd : ∀ n ∈ [PPT.ImageNode.mk true 0 0 100 100 none (some ((2 : ℚ), (1 : ℚ)))],
      ∀ iw ih, n.dims = some (iw, ih) → 0 < iw ∧ 0 < ih := by
    intro n hn iw ih hdim
    rw [List.mem_singleton] at hn
    subst hn
    simp only [] at hdim
    rw [Option.some_inj] at hdim
    obtain ⟨h1, h2⟩ := Prod.mk.injEq .. ▸ hdim
    constructor <;> [rw [← h1]; rw [← h2]] <;> norm_num
  have hm : (PPT.ImageNode.mk true 0 0 100 100 none (some ((2 : ℚ), (1 : ℚ)))).mode
      = FitMode.meet := by decide
  have hfit : (PPT.ImageNode.mk true 0 0 100 100 none (some ((2 : ℚ), (1 : ℚ)))).fitted
      = (100, 50) := by
    unfold PPT.ImageNode.fitted
    simp only [hm]
    norm_num [calculate_fitted_dimensions]
  refine ⟨hd, C6_second_run_zero_when_exact _ hd ?_⟩
  intro n hn _
  rw [List.mem_singleton] at hn
  subst hn
  rw [hfit]
  constructor <;> norm_num [round1]

/-- C10: a node with no `preserveAspectRatio` attribute gets the default
`"xMidYMid meet"`, is not skipped by the `"none"` guard, and has fit mode
meet; in general a value is skipped exactly when it contains `"none"`,
with mode slice exactly when it contains `"slice"` and meet otherwise;
and such a default node is actually processed: the Fixer rewrites it. -/
theorem C10_par_default_and_substring_gate (n : ImageNode) (v : List Char) :
    (n.par = none →
      n.parValue = defaultPar ∧ n.parSkip = false ∧ n.mode = .meet) ∧
    (n.par = some v →
      (n.parSkip = containsSeq ("none".toList) v ∧
        n.mode = (if containsSeq ("slice".toList) v then FitMode.slice
          else FitMode.meet))) ∧
    fixNode (ImageNode.mk true 0 0 100 100 none (some (2, 1)))
      = (ImageNode.mk true 0 25 100 50 none (some (2, 1)), true) := by
  refine ⟨?_, ?_, ?_⟩
  · intro h
    refine ⟨by simp [ImageNode.parValue, h], ?_, ?_⟩
    · simp only [ImageNode.parSkip, ImageNode.parValue, h, Option.getD_none]
      decide
    · simp only [ImageNode.mode, ImageNode.parValue, h, Option.getD_none]
      decide
  · intro h
    constructor
    · simp [ImageNode.parSkip, ImageNode.parValue, h]
    · simp [ImageNode.mode, ImageNode.parValue, h]
  · have hm : (ImageNode.mk true 0 0 100 100 none (some ((2 : ℚ), (1 : ℚ)))).mode
        = FitMode.meet := by decide
    have hc : calculate_fitted_dimensions 2 1 100 100 FitMode.meet
        = (100, 50, 0, 25) := by
      norm_num [calculate_fitted_dimensions]
    rw [fixNode_eval_fix _ 2 1 rfl rfl (by norm_num) (by decide)
      (by rw [hm, hc]
          norm_num [abs_sub_lt_iff])]
    rw [hm, hc]
    simp only [Prod.mk.injEq, ImageNode.mk.injEq]
    norm_num [round1]

theorem C10_par_default_and_substring_gate_witness :
    (ImageNode.mk true 1 2 3 4 none none : ImageNode).par = none ∧
    (ImageNode.mk true 1 2 3 4 none none : ImageNode).parSkip = false ∧
    (ImageNode.mk true 1 2 3 4 none none : ImageNode).mode = FitMode.meet :=
  ⟨rfl,
    ((C10_par_default_and_substring_gate (ImageNode.mk true 1 2 3 4 none none) []).1
      rfl).2.1,
    ((C10_par_default_and_substring_gate (ImageNode.mk true 1 2 3 4 none none) []).1
      rfl).2.2⟩

theorem C8_nonmagic_streams_unknown_witness :
    (([1, 2, 3] : List Nat).take 64).take 8 ≠ pngMagic ∧
    (([1, 2, 3] : List Nat).take 64).take 2 ≠ [0xFF, 0xD8] ∧
    ([9] : List Nat).take 8 ≠ pngMagic ∧
    get_image_dimensions_basic [1, 2, 3] = none :=
  ⟨by decide, by decide, by decide,
    (C8_nonmagic_streams_unknown [1, 2, 3] ("png".toList) [9]
      (by decide) (by decide) (by decide)).1⟩

/-! ## Claims C7 and C9: the Asset Embedder -/

mutual

/-- An element with no resolvable external reference anywhere inside is
returned unchanged with zero embeddings (warnings may still fire for
missing files). -/
theorem elemClean_embed (fs : List Char → Option FsFile) :
    ∀ e : Elem, elemClean fs e = true →
      (embedElem fs e).1 = e ∧ (embedElem fs e).2.1 = 0
  | .image href x y w h, h1 => by
    cases href with
    | none => simp [embedElem]
    | some hr =>
      cases hr with
      | data mt payload => simp [embedElem]
      | file p =>
        by_cases hp : p = []
        · simp [embedElem, hp]
        · have h2 : fs p = none := by
            have h3 : p = [] ∨ fs p = none := by simpa [elemClean] using h1
            rcases h3 with h | h
            · exact absurd h hp
            · exact h
          simp [embedElem, hp, h2]
  | .g t children, h1 => by
    have h2 : childrenClean fs children = true := by simpa [elemClean] using h1
    have h3 := childrenClean_embed fs children h2
    simp [embedElem, h3.1, h3.2]
  | .other, _ => by simp [embedElem]

theorem childrenClean_embed (fs : List Char → Option FsFile) :
    ∀ l : List Elem, childrenClean fs l = true →
      (embedChildren fs l).1 = l ∧ (embedChildren fs l).2.1 = 0
  | [], _ => by simp [embedChildren]
  | e :: rest, h1 => by
    have he : elemClean fs e = true := by
      have := h1
      simp only [childrenClean, Bool.and_eq_true] at this
      exact this.1
    have hr : childrenClean fs rest = true := by
      have := h1
      simp only [childrenClean, Bool.and_eq_true] at this
      exact this.2
    have H1 := elemClean_embed fs e he
    have H2 := childrenClean_embed fs rest hr
    simp [embedChildren, H1.1, H1.2, H2.1, H2.2]

end

mutual

/-- After one Embedder run, an element contains no resolvable external
reference, provided each vector target the element itself structurally
inlines has children free of such references. -/
theorem elemClean_after (fs : List Char → Option FsFile) :
    ∀ e : Elem, elemTargetsClean fs e → elemClean fs (embedElem fs e).1 = true
  | .image href x y w h, H => by
    cases href with
    | none => simp [embedElem, elemClean]
    | some hr =>
      cases hr with
      | data mt payload => simp [embedElem, elemClean]
      | file p =>
        by_cases hp : p = []
        · simp [embedElem, elemClean, hp]
        · cases hfp : fs p with
          | none => simp [embedElem, elemClean, hp, hfp]
          | some f =>
            by_cases hsvg : isSvgPath p = true
            · cases hparse : f.svgParse with
              | none => simp [embedElem, elemClean, hp, hfp, hsvg, hparse]
              | some pr =>
                obtain ⟨ch, d⟩ := pr
                have hc : childrenClean fs ch = true := by
                  have H' : p ≠ [] → isSvgPath p = true →
                      ∀ f', fs p = some f' → ∀ ch' d', f'.svgParse = some (ch', d') →
                        childrenClean fs ch' = true := H
                  exact H' hp hsvg f hfp ch d hparse
                simp [embedElem, elemClean, hp, hfp, hsvg, hparse, hc]
            · simp [embedElem, elemClean, hp, hfp, hsvg]
  | .g t children, H => by
    simp only [embedElem, elemClean]
    exact childrenClean_after fs children H
  | .other, _ => by simp [embedElem, elemClean]

theorem childrenClean_after (fs : List Char → Option FsFile) :
    ∀ l : List Elem, childrenTargetsClean fs l →
      childrenClean fs (embedChildren fs l).1 = true
  | [], _ => by simp [embedChildren, childrenClean]
  | e :: rest, H => by
    have H1 : elemTargetsClean fs e := H.1
    have H2 : childrenTargetsClean fs rest := H.2
    simp only [embedChildren, childrenClean, Bool.and_eq_true]
    exact ⟨elemClean_after fs e H1, childrenClean_after fs rest H2⟩

end

/-- C7 (amended): a placement node whose reference is already inline is
left untouched; and the second Embedder run performs zero additional
embeddings on every document whose structurally-inlinable vector targets
contain no image descendant referencing an existing file.  (Without that
proviso the second run can embed the references inside inlined content —
see the counterexample.) -/
theorem C7_embedder_idempotent_when_targets_clean
    (fs : List Char → Option FsFile) (doc : List Elem)
    (H : childrenTargetsClean fs doc) :
    (∀ (mt : List Char) (payload : List Nat) (x y w h : ℚ),
      embedElem fs (.image (some (.data mt payload)) x y w h)
        = (.image (some (.data mt payload)) x y w h, 0, 0)) ∧
    (embed_images_in_svg fs (embed_images_in_svg fs doc).1).2.1 = 0 := by
  constructor
  · intro mt payload x y w h
    simp [embedElem]
  · have h1 := childrenClean_after fs doc H
    exact (childrenClean_embed fs _ h1).2

/-- C7 counterexample: a document whose single image references `a.svg`,
an SVG file whose own content references the existing raster `b.png`.
The first run structurally inlines `a.svg` (1 embedding); the inlined
copy's reference was not collected in that run, so the second run finds
it and embeds `b.png`: 1 additional embedding, not 0. -/
theorem C7_counterexample_second_run_embeds :
    (embed_images_in_svg
      (fun p => if p = "a.svg".toList then
          some ⟨[7], some ([Elem.image (some (Href.file ("b.png".toList))) 0 0 5 5],
            none)⟩
        else if p = "b.png".toList then some ⟨[1, 2], none⟩
        else none)
      [Elem.image (some (Href.file ("a.svg".toList))) 0 0 10 10]).2.1 = 1 ∧
    (embed_images_in_svg
      (fun p => if p = "a.svg".toList then
          some ⟨[7], some ([Elem.image (some (Href.file ("b.png".toList))) 0 0 5 5],
            none)⟩
        else if p = "b.png".toList then some ⟨[1, 2], none⟩
        else none)
      (embed_images_in_svg
        (fun p => if p = "a.svg".toList then
            some ⟨[7], some ([Elem.image (some (Href.file ("b.png".toList))) 0 0 5 5],
              none)⟩
          else if p = "b.png".toList then some ⟨[1, 2], none⟩
          else none)
        [Elem.image (some (Href.file ("a.svg".toList))) 0 0 10 10]).1).2.1 = 1 := by
  have hsvg : isSvgPath ['a', '.', 's', 'v', 'g'] = true := by decide
  have hpng : isSvgPath ['b', '.', 'p', 'n', 'g'] = false := by decide
  have hne : ¬((['b', '.', 'p', 'n', 'g'] : List Char) = ['a', '.', 's', 'v', 'g']) := by
    decide
  constructor
  · simp [embed_images_in_svg, embedChildren, embedElem, hsvg]
  · simp [embed_images_in_svg, embedChildren, embedElem, hsvg, hpng, hne]

/-- C9: a placement node whose referenced file does not exist produces a
warning and is skipped, without stopping the traversal: in a
two-node document with one missing and one valid raster reference, the
valid one is still byte-inline embedded and counted (1 embedding,
1 warning). -/
theorem C9_missing_file_warns_and_continues (fs : List Char → Option FsFile)
    (p1 p2 : List Char) (f : FsFile) (x1 y1 w1 h1 x2 y2 w2 h2 : ℚ)
    (hp1ne : p1 ≠ []) (hp2ne : p2 ≠ [])
    (hfs1 : fs p1 = none) (hfs2 : fs p2 = some f) (hp2 : isSvgPath p2 = false) :
    embed_images_in_svg fs
      [Elem.image (some (Href.file p1)) x1 y1 w1 h1,
       Elem.image (some (Href.file p2)) x2 y2 w2 h2]
      = ([Elem.image (some (Href.file p1)) x1 y1 w1 h1,
          Elem.image (some (Href.data (get_mime_type p2) f.bytes)) x2 y2 w2 h2],
         1, 1) := by
  simp [embed_images_in_svg, embedChildren, embedElem, hp1ne, hp2ne, hfs1, hfs2, hp2]

theorem C9_missing_file_warns_and_continues_witness :
    isSvgPath ("b.png".toList) = false ∧
    embed_images_in_svg
      (fun p => if p = "b.png".toList then some ⟨[1, 2, 3], none⟩ else none)
      [Elem.image (some (Href.file ("a.png".toList))) 0 0 4 4,
       Elem.image (some (Href.file ("b.png".toList))) 1 1 4 4]
      = ([Elem.image (some (Href.file ("a.png".toList))) 0 0 4 4,
          Elem.image (some (Href.data (get_mime_type ("b.png".toList)) [1, 2, 3])) 1 1 4 4],
         1, 1) :=
  ⟨by decide,
    C9_missing_file_warns_and_continues
      (fun p => if p = "b.png".toList then some ⟨[1, 2, 3], none⟩ else none)
      ("a.png".toList) ("b.png".toList) ⟨[1, 2, 3], none⟩ 0 0 4 4 1 1 4 4
      (by decide)
      (by decide)
      (by simp)
      (by simp)
      (by decide)⟩

theorem C7_embedder_idempotent_when_targets_clean_witness :
    (embed_images_in_svg
      (fun p => if p = "a.svg".toList then
          some ⟨[7], some ([Elem.other], none)⟩
        else if p = "b.png".toList then some ⟨[1, 2], none⟩
        else none)
      [Elem.image (some (Href.file ("a.svg".toList))) 0 0 10 10,
       Elem.image (some (Href.file ("b.png".toList))) 0 0 4 4]).2.1 = 2 ∧
    (embed_images_in_svg
      (fun p => if p = "a.svg".toList then
          some ⟨[7], some ([Elem.other], none)⟩
        else if p = "b.png".toList then some ⟨[1, 2], none⟩
        else none)
      (embed_images_in_svg
        (fun p => if p = "a.svg".toList then
            some ⟨[7], some ([Elem.other], none)⟩
          else if p = "b.png".toList then some ⟨[1, 2], none⟩
          else none)
        [Elem.image (some (Href.file ("a.svg".toList))) 0 0 10 10,
         Elem.image (some (Href.file ("b.png".toList))) 0 0 4 4]).1).2.1 = 0 := by
  constructor
  · have hsvg : isSvgPath ['a', '.', 's', 'v', 'g'] = true := by decide
    have hpng : isSvgPath ['b', '.', 'p', 'n', 'g'] = false := by decide
    have hne : ¬((['b', '.', 'p', 'n', 'g'] : List Char) = ['a', '.', 's', 'v', 'g']) := by
      decide
    simp [embed_images_in_svg, embedChildren, embedElem, hsvg, hpng, hne]
  · refine (C7_embedder_idempotent_when_targets_clean _ _ ?_).2
    refine ⟨?_, ?_, trivial⟩
    · intro _ _ f hf ch d hpar
      simp only [] at hf
      rw [if_pos trivial] at hf
      have hff := Option.some_inj.mp hf
      rw [← hff] at hpar
      simp only [Option.some.injEq, Prod.mk.injEq] at hpar
      rw [← hpar.1]
      simp [childrenClean, elemClean]
    · intro _ hsvg
      exact absurd hsvg (by decide)
